import Mathlib

/-!
# EchoHub GitHub link service — shallow embedding and verification

Shallow embedding of `src/server/routes/githubAuth.js` (Express router for the
GitHub OAuth link flow) and proofs about it.

JavaScript strings are modelled as `List Char` (sequences of Unicode scalar
values).  JSON values are modelled by the inductive `Js`; JavaScript property
access, truthiness, `JSON.stringify`/`JSON.parse`, Node's `Buffer` base64 and
UTF-8 codecs are each given executable definitions translated from the
behaviour the route code relies on.  The user-account store (a Mongoose
collection, external to the routed file) is modelled as an association list
keyed by id, following the spec's description of the collaborator.
-/

set_option maxHeartbeats 1000000

/-- A JavaScript string: a sequence of Unicode scalar values. -/
abbrev JStr := List Char

/-- JSON values as produced by `JSON.parse` (and held in JS object fields).
Numbers are kept exactly as mantissa `m` times `10 ^ e` (JSON syntax cannot
produce `NaN`/`Infinity`; the claims never depend on double rounding). -/
inductive Js where
  | null : Js
  | bool (b : Bool) : Js
  | num (m : Int) (e : Int) : Js
  | str (s : JStr) : Js
  | arr (xs : List Js) : Js
  | obj (fields : List (JStr × Js)) : Js

/-- JavaScript truthiness of a JSON value (`if (v)`): `null`, `false`, `0`
and `""` are falsy; every object and array is truthy. -/
def jsTruthy : Js → Bool
  | .null => false
  | .bool b => b
  | .num m _ => m != 0
  | .str s => !s.isEmpty
  | .arr _ => true
  | .obj _ => true

/-- Truthiness of a possibly-`undefined` value (`none` = `undefined`). -/
def jsTruthyOpt : Option Js → Bool
  | none => false
  | some v => jsTruthy v

/-- Property access `v[k]` on a non-`null` value: on an object the last
binding for the key wins (as `JSON.parse` keeps the last duplicate key);
on primitives and arrays (for our string keys) the result is `undefined`
(`none`).  Access on `null` throws in JavaScript and is handled at each
call site. -/
def jsGet (v : Js) (k : JStr) : Option Js :=
  match v with
  | .obj fields => fields.reverse.lookup k
  | _ => none

/-- Truthiness of an optional query-string parameter (`none` = absent). -/
def queryTruthy : Option JStr → Bool
  | none => false
  | some s => !s.isEmpty

/-! ## Node `Buffer` base64 codec

`Buffer.from(s).toString('base64')` and `Buffer.from(s, 'base64')`.
Node's base64 decoder is forgiving: characters outside the base64 alphabet
(including `=` padding and whitespace) are skipped, and a trailing group of
2 or 3 sextets yields 1 or 2 bytes. -/

/-- The base64 alphabet character for a sextet value `< 64`. -/
def base64Char (n : Nat) : Char :=
  if n < 26 then Char.ofNat (65 + n)
  else if n < 52 then Char.ofNat (97 + (n - 26))
  else if n < 62 then Char.ofNat (48 + (n - 52))
  else if n = 62 then '+'
  else '/'

/-- The sextet value of a base64 alphabet character, `none` for characters
outside the alphabet (Node skips those). -/
def base64Val (c : Char) : Option Nat :=
  if 'A' ≤ c ∧ c ≤ 'Z' then some (c.toNat - 65)
  else if 'a' ≤ c ∧ c ≤ 'z' then some (c.toNat - 97 + 26)
  else if '0' ≤ c ∧ c ≤ '9' then some (c.toNat - 48 + 52)
  else if c = '+' then some 62
  else if c = '/' then some 63
  else none

/-- Base64-encode a byte sequence, with `=` padding (Node
`buf.toString('base64')`). -/
def base64Encode : List Nat → List Char
  | [] => []
  | [b1] => [base64Char (b1 / 4), base64Char (b1 % 4 * 16), '=', '=']
  | [b1, b2] =>
      [base64Char (b1 / 4), base64Char (b1 % 4 * 16 + b2 / 16),
       base64Char (b2 % 16 * 4), '=']
  | b1 :: b2 :: b3 :: rest =>
      base64Char (b1 / 4) :: base64Char (b1 % 4 * 16 + b2 / 16) ::
      base64Char (b2 % 16 * 4 + b3 / 64) :: base64Char (b3 % 64) ::
      base64Encode rest

/-- Reassemble bytes from the surviving sextets, 4 at a time; a trailing
group of 2 (resp. 3) sextets contributes 1 (resp. 2) bytes. -/
def base64Bytes : List Nat → List Nat
  | s1 :: s2 :: s3 :: s4 :: rest =>
      (s1 * 4 + s2 / 16) :: (s2 % 16 * 16 + s3 / 4) :: (s3 % 4 * 64 + s4) ::
      base64Bytes rest
  | [s1, s2] => [s1 * 4 + s2 / 16]
  | [s1, s2, s3] => [s1 * 4 + s2 / 16, s2 % 16 * 16 + s3 / 4]
  | _ => []

/-- Base64-decode a string Node-style (`Buffer.from(s, 'base64')`):
non-alphabet characters are skipped, then sextets are grouped. -/
def base64Decode (s : JStr) : List Nat :=
  base64Bytes (s.filterMap base64Val)

theorem base64Val_base64Char {n : Nat} (h : n < 64) :
    base64Val (base64Char n) = some n := by
  interval_cases n <;> decide

theorem base64Val_eq : base64Val '=' = none := by decide

theorem base64Encode_filterMap (bs : List Nat) :
    (h : ∀ b ∈ bs, b < 256) →
    (base64Encode bs).filterMap base64Val =
      match bs with
      | [] => []
      | [b1] => [b1 / 4, b1 % 4 * 16]
      | [b1, b2] => [b1 / 4, b1 % 4 * 16 + b2 / 16, b2 % 16 * 4]
      | b1 :: b2 :: b3 :: rest =>
          b1 / 4 :: (b1 % 4 * 16 + b2 / 16) :: (b2 % 16 * 4 + b3 / 64) ::
          b3 % 64 :: (base64Encode rest).filterMap base64Val := by
  intro h
  match bs with
  | [] => rfl
  | [b1] =>
      have h1 := h b1 (by simp)
      simp [base64Encode, List.filterMap,
        base64Val_base64Char (show b1 / 4 < 64 by omega),
        base64Val_base64Char (show b1 % 4 * 16 < 64 by omega),
        base64Val_eq]
  | [b1, b2] =>
      have h1 := h b1 (by simp)
      have h2 := h b2 (by simp)
      simp [base64Encode, List.filterMap,
        base64Val_base64Char (show b1 / 4 < 64 by omega),
        base64Val_base64Char (show b1 % 4 * 16 + b2 / 16 < 64 by omega),
        base64Val_base64Char (show b2 % 16 * 4 < 64 by omega),
        base64Val_eq]
  | b1 :: b2 :: b3 :: rest =>
      have h1 := h b1 (by simp)
      have h2 := h b2 (by simp)
      have h3 := h b3 (by simp)
      simp [base64Encode, List.filterMap,
        base64Val_base64Char (show b1 / 4 < 64 by omega),
        base64Val_base64Char (show b1 % 4 * 16 + b2 / 16 < 64 by omega),
        base64Val_base64Char (show b2 % 16 * 4 + b3 / 64 < 64 by omega),
        base64Val_base64Char (show b3 % 64 < 64 by omega)]

/-- Round trip: Node's forgiving base64 decoder inverts the encoder on any
byte sequence. -/
theorem base64Decode_base64Encode : ∀ bs : List Nat, (∀ b ∈ bs, b < 256) →
    base64Decode (base64Encode bs) = bs
  | [], _ => rfl
  | [b1], h => by
      have h1 := h b1 (by simp)
      unfold base64Decode
      rw [base64Encode_filterMap _ h]
      simp only [base64Bytes, List.cons.injEq, and_true]
      omega
  | [b1, b2], h => by
      have h1 := h b1 (by simp)
      have h2 := h b2 (by simp)
      unfold base64Decode
      rw [base64Encode_filterMap _ h]
      simp only [base64Bytes, List.cons.injEq, and_true]
      omega
  | b1 :: b2 :: b3 :: rest, h => by
      have h1 := h b1 (by simp)
      have h2 := h b2 (by simp)
      have h3 := h b3 (by simp)
      have ih := base64Decode_base64Encode rest
        (fun b hb => h b (by simp [hb]))
      unfold base64Decode at ih
      unfold base64Decode
      rw [base64Encode_filterMap _ h]
      simp only [base64Bytes, List.cons.injEq]
      refine ⟨by omega, by omega, by omega, ih⟩

/-! ## Node `Buffer` UTF-8 codec

`Buffer.from(string)` encodes UTF-8; `buf.toString()` decodes, replacing
invalid sequences with U+FFFD.  Strings are sequences of Unicode scalar
values, so encoding never emits surrogates. -/

/-- UTF-8 encoding of one Unicode scalar value. -/
def utf8EncodeChar (c : Char) : List Nat :=
  if c.toNat < 0x80 then [c.toNat]
  else if c.toNat < 0x800 then [0xC0 + c.toNat / 64, 0x80 + c.toNat % 64]
  else if c.toNat < 0x10000 then
    [0xE0 + c.toNat / 4096, 0x80 + c.toNat / 64 % 64, 0x80 + c.toNat % 64]
  else
    [0xF0 + c.toNat / 262144, 0x80 + c.toNat / 4096 % 64,
     0x80 + c.toNat / 64 % 64, 0x80 + c.toNat % 64]

/-- UTF-8 encoding of a string (`Buffer.from(s)`). -/
def utf8Encode : JStr → List Nat
  | [] => []
  | c :: s => utf8EncodeChar c ++ utf8Encode s

/-- U+FFFD, emitted by Node's decoder for invalid byte sequences. -/
def replacementChar : Char := Char.ofNat 0xFFFD

/-- One UTF-8 decoding step: given the lead byte and the remaining bytes,
produce the decoded character (U+FFFD on an invalid sequence) and the bytes
still to decode. -/
def utf8Step (b : Nat) (rest : List Nat) : Char × List Nat :=
  if b < 0x80 then (Char.ofNat b, rest)
  else if b < 0xC2 then (replacementChar, rest)
  else if b < 0xE0 then
    match rest with
    | b2 :: rest2 =>
      if b2 / 64 = 2 then
        (Char.ofNat ((b - 0xC0) * 64 + (b2 - 0x80)), rest2)
      else (replacementChar, b2 :: rest2)
    | [] => (replacementChar, [])
  else if b < 0xF0 then
    match rest with
    | b2 :: b3 :: rest2 =>
      if b2 / 64 = 2 ∧ b3 / 64 = 2 ∧ (b = 0xE0 → 0xA0 ≤ b2) ∧
          (b = 0xED → b2 < 0xA0) then
        (Char.ofNat ((b - 0xE0) * 4096 + (b2 - 0x80) * 64 + (b3 - 0x80)),
         rest2)
      else (replacementChar, b2 :: b3 :: rest2)
    | other => (replacementChar, other)
  else if b < 0xF5 then
    match rest with
    | b2 :: b3 :: b4 :: rest2 =>
      if b2 / 64 = 2 ∧ b3 / 64 = 2 ∧ b4 / 64 = 2 ∧
          (b = 0xF0 → 0x90 ≤ b2) ∧ (b = 0xF4 → b2 < 0x90) then
        (Char.ofNat ((b - 0xF0) * 262144 + (b2 - 0x80) * 4096 +
          (b3 - 0x80) * 64 + (b4 - 0x80)), rest2)
      else (replacementChar, b2 :: b3 :: b4 :: rest2)
    | other => (replacementChar, other)
  else (replacementChar, rest)

theorem utf8Step_length (b : Nat) (rest : List Nat) :
    (utf8Step b rest).2.length ≤ rest.length := by
  unfold utf8Step
  repeat' split
  all_goals simp_all [List.length]
  all_goals omega

/-- Fuel-indexed UTF-8 decoding loop; each decoded character consumes one
unit of fuel and at least one byte, so fuel `l.length` always suffices. -/
def utf8DecodeF : Nat → List Nat → List Char
  | 0, _ => []
  | _ + 1, [] => []
  | n + 1, b :: rest =>
      (utf8Step b rest).1 :: utf8DecodeF n (utf8Step b rest).2

/-- UTF-8 decoding of a byte sequence (`buf.toString()`), with U+FFFD
replacement on invalid sequences. -/
def utf8Decode (l : List Nat) : List Char := utf8DecodeF l.length l

theorem char_toNat_valid (c : Char) :
    c.toNat < 0xD800 ∨ (0xE000 ≤ c.toNat ∧ c.toNat < 0x110000) := by
  rcases c.valid with h | h
  · left
    exact_mod_cast h
  · right
    exact ⟨by exact_mod_cast h.1, by exact_mod_cast h.2⟩

/-- Decoding the UTF-8 bytes of one scalar value in front of any byte tail
yields that character followed by the decoded tail. -/
theorem utf8DecodeF_encodeChar (c : Char) (bs : List Nat) (f : Nat) :
    utf8DecodeF (f + 1) (utf8EncodeChar c ++ bs) = c :: utf8DecodeF f bs := by
  have hval := char_toNat_valid c
  have hofNat : Char.ofNat c.toNat = c := Char.ofNat_toNat c
  unfold utf8EncodeChar
  rcases Nat.lt_or_ge c.toNat 0x80 with h1 | h1
  · rw [if_pos h1]
    simp only [List.cons_append, List.nil_append]
    rw [utf8DecodeF]
    have hstep : utf8Step c.toNat bs = (c, bs) := by
      simp only [utf8Step]
      rw [if_pos h1, hofNat]
    rw [hstep]
  · rcases Nat.lt_or_ge c.toNat 0x800 with h2 | h2
    · rw [if_neg (by omega), if_pos h2]
      simp only [List.cons_append, List.nil_append]
      rw [utf8DecodeF]
      have hstep : utf8Step (0xC0 + c.toNat / 64) ((0x80 + c.toNat % 64) :: bs)
          = (c, bs) := by
        simp only [utf8Step]
        rw [if_neg (by omega), if_neg (by omega),
          if_pos (show 0xC0 + c.toNat / 64 < 0xE0 by omega)]
        rw [if_pos (show (0x80 + c.toNat % 64) / 64 = 2 by omega)]
        have hv : (0xC0 + c.toNat / 64 - 0xC0) * 64 +
            (0x80 + c.toNat % 64 - 0x80) = c.toNat := by omega
        rw [hv, hofNat]
      rw [hstep]
    · rcases Nat.lt_or_ge c.toNat 0x10000 with h3 | h3
      · rw [if_neg (by omega), if_neg (by omega), if_pos h3]
        simp only [List.cons_append, List.nil_append]
        rw [utf8DecodeF]
        have hstep : utf8Step (0xE0 + c.toNat / 4096)
            ((0x80 + c.toNat / 64 % 64) :: (0x80 + c.toNat % 64) :: bs)
            = (c, bs) := by
          simp only [utf8Step]
          rw [if_neg (by omega), if_neg (by omega),
            if_neg (show ¬(0xE0 + c.toNat / 4096 < 0xE0) by omega),
            if_pos (show 0xE0 + c.toNat / 4096 < 0xF0 by omega)]
          rw [if_pos (show (0x80 + c.toNat / 64 % 64) / 64 = 2 ∧
              (0x80 + c.toNat % 64) / 64 = 2 ∧
              (0xE0 + c.toNat / 4096 = 0xE0 → 0xA0 ≤ 0x80 + c.toNat / 64 % 64) ∧
              (0xE0 + c.toNat / 4096 = 0xED → 0x80 + c.toNat / 64 % 64 < 0xA0)
              from ⟨by omega, by omega, by omega, by omega⟩)]
          have hv : (0xE0 + c.toNat / 4096 - 0xE0) * 4096 +
              (0x80 + c.toNat / 64 % 64 - 0x80) * 64 +
              (0x80 + c.toNat % 64 - 0x80) = c.toNat := by omega
          rw [hv, hofNat]
        rw [hstep]
      · rw [if_neg (by omega), if_neg (by omega), if_neg (by omega)]
        simp only [List.cons_append, List.nil_append]
        rw [utf8DecodeF]
        have hstep : utf8Step (0xF0 + c.toNat / 262144)
            ((0x80 + c.toNat / 4096 % 64) :: (0x80 + c.toNat / 64 % 64) ::
             (0x80 + c.toNat % 64) :: bs) = (c, bs) := by
          simp only [utf8Step]
          rw [if_neg (by omega), if_neg (by omega),
            if_neg (show ¬(0xF0 + c.toNat / 262144 < 0xE0) by omega),
            if_neg (show ¬(0xF0 + c.toNat / 262144 < 0xF0) by omega),
            if_pos (show 0xF0 + c.toNat / 262144 < 0xF5 by omega)]
          rw [if_pos (show (0x80 + c.toNat / 4096 % 64) / 64 = 2 ∧
              (0x80 + c.toNat / 64 % 64) / 64 = 2 ∧
              (0x80 + c.toNat % 64) / 64 = 2 ∧
              (0xF0 + c.toNat / 262144 = 0xF0 → 0x90 ≤ 0x80 + c.toNat / 4096 % 64) ∧
              (0xF0 + c.toNat / 262144 = 0xF4 → 0x80 + c.toNat / 4096 % 64 < 0x90)
              from ⟨by omega, by omega, by omega, by omega, by omega⟩)]
          have hv : (0xF0 + c.toNat / 262144 - 0xF0) * 262144 +
              (0x80 + c.toNat / 4096 % 64 - 0x80) * 4096 +
              (0x80 + c.toNat / 64 % 64 - 0x80) * 64 +
              (0x80 + c.toNat % 64 - 0x80) = c.toNat := by omega
          rw [hv, hofNat]
        rw [hstep]

theorem utf8DecodeF_utf8Encode : ∀ (s : JStr) (f : Nat), s.length ≤ f →
    utf8DecodeF f (utf8Encode s) = s
  | [], f, _ => by cases f <;> rfl
  | c :: s, f, h => by
      cases f with
      | zero => simp at h
      | succ m =>
        rw [utf8Encode, utf8DecodeF_encodeChar,
          utf8DecodeF_utf8Encode s m
            (by simp only [List.length_cons] at h; omega)]

theorem utf8Encode_length_ge : ∀ s : JStr, s.length ≤ (utf8Encode s).length
  | [] => by simp [utf8Encode]
  | c :: s => by
      rw [utf8Encode]
      simp only [List.length_append, List.length_cons]
      have h1 : 1 ≤ (utf8EncodeChar c).length := by
        unfold utf8EncodeChar
        repeat' split
        all_goals simp
      have h2 := utf8Encode_length_ge s
      omega

/-- Round trip: Node's UTF-8 decoder inverts the encoder on every string. -/
theorem utf8Decode_utf8Encode (s : JStr) : utf8Decode (utf8Encode s) = s :=
  utf8DecodeF_utf8Encode s _ (utf8Encode_length_ge s)

/-! ## JSON

`JSON.stringify({userId})` and `JSON.parse`, as used by the `/auth` route to
build the OAuth `state` and by the `/callback` route to decode it.  Since our
strings hold Unicode scalar values, a `\uXXXX` escape denoting a lone
surrogate decodes to U+FFFD. -/

/-- Lowercase hex digit, as `JSON.stringify` emits in `\u00xx` escapes. -/
def hexDigit (n : Nat) : Char :=
  if n < 10 then Char.ofNat (48 + n) else Char.ofNat (87 + n)

/-- Hex digit value (both cases), `none` for non-hex characters. -/
def hexVal (c : Char) : Option Nat :=
  if '0' ≤ c ∧ c ≤ '9' then some (c.toNat - 48)
  else if 'a' ≤ c ∧ c ≤ 'f' then some (c.toNat - 87)
  else if 'A' ≤ c ∧ c ≤ 'F' then some (c.toNat - 55)
  else none

/-- The escape `JSON.stringify` uses for one string character. -/
def jsonEscapeChar (c : Char) : List Char :=
  if c = '"' then ['\\', '"']
  else if c = '\\' then ['\\', '\\']
  else if c.toNat = 8 then ['\\', 'b']
  else if c.toNat = 9 then ['\\', 't']
  else if c.toNat = 10 then ['\\', 'n']
  else if c.toNat = 12 then ['\\', 'f']
  else if c.toNat = 13 then ['\\', 'r']
  else if c.toNat < 32 then
    ['\\', 'u', '0', '0', hexDigit (c.toNat / 16), hexDigit (c.toNat % 16)]
  else [c]

def jsonEscape : JStr → List Char
  | [] => []
  | c :: s => jsonEscapeChar c ++ jsonEscape s

/-- `JSON.stringify` of a string value. -/
def jsonQuote (s : JStr) : List Char :=
  '"' :: (jsonEscape s ++ ['"'])

/-- `JSON.stringify({ userId: uid })`, as the `/auth` route computes before
base64-encoding the state. -/
def jsonStringifyUserId (uid : JStr) : List Char :=
  Char.ofNat 123 ::
    (jsonQuote "userId".toList ++ ':' :: jsonQuote uid) ++ [Char.ofNat 125]

def isJsonWs (c : Char) : Bool :=
  c.toNat = 32 || c.toNat = 9 || c.toNat = 10 || c.toNat = 13

def skipWs : List Char → List Char
  | [] => []
  | c :: s => if isJsonWs c then skipWs s else c :: s

/-- Prepend a character to the string under construction. -/
def consStr (c : Char) : Option (JStr × List Char) → Option (JStr × List Char)
  | none => none
  | some (s, r) => some (c :: s, r)

/-- Combine an escaped high surrogate `n` with a following `\uXXXX` low
surrogate when present; otherwise the lone surrogate (unrepresentable in a
scalar-value string) becomes U+FFFD. -/
def escPair (n : Nat) (r : List Char) : Char × List Char :=
  match r with
  | '\\' :: 'u' :: g1 :: g2 :: g3 :: g4 :: rest4 =>
    match hexVal g1, hexVal g2, hexVal g3, hexVal g4 with
    | some a2, some b2, some c2, some d2 =>
      if 0xDC00 ≤ ((a2 * 16 + b2) * 16 + c2) * 16 + d2 ∧
          ((a2 * 16 + b2) * 16 + c2) * 16 + d2 < 0xE000 then
        (Char.ofNat (0x10000 + (n - 0xD800) * 1024 +
          (((a2 * 16 + b2) * 16 + c2) * 16 + d2 - 0xDC00)), rest4)
      else (replacementChar, '\\' :: 'u' :: g1 :: g2 :: g3 :: g4 :: rest4)
    | _, _, _, _ =>
      (replacementChar, '\\' :: 'u' :: g1 :: g2 :: g3 :: g4 :: rest4)
  | other => (replacementChar, other)

theorem escPair_length (n : Nat) (r : List Char) :
    (escPair n r).2.length ≤ r.length := by
  unfold escPair
  repeat' split
  all_goals simp [List.length]
  all_goals omega

/-- Decode a `\uXXXX` escape (the input starts right after the `u`). -/
def escUnicode : List Char → Option (Char × List Char)
  | h1 :: h2 :: h3 :: h4 :: rest3 =>
    match hexVal h1, hexVal h2, hexVal h3, hexVal h4 with
    | some a, some b, some c1, some d =>
      if 0xD800 ≤ ((a * 16 + b) * 16 + c1) * 16 + d ∧
          ((a * 16 + b) * 16 + c1) * 16 + d < 0xDC00 then
        some (escPair (((a * 16 + b) * 16 + c1) * 16 + d) rest3)
      else if 0xDC00 ≤ ((a * 16 + b) * 16 + c1) * 16 + d ∧
          ((a * 16 + b) * 16 + c1) * 16 + d < 0xE000 then
        some (replacementChar, rest3)
      else some (Char.ofNat (((a * 16 + b) * 16 + c1) * 16 + d), rest3)
    | _, _, _, _ => none
  | _ => none

theorem escUnicode_length : ∀ (r : List Char) (d : Char) (r2 : List Char),
    escUnicode r = some (d, r2) → r2.length ≤ r.length := by
  intro r d r2 h
  unfold escUnicode at h
  repeat' split at h
  all_goals
    first
      | exact Option.noConfusion h
      | (injection h with h'
         have h2' : r2 = _ := (congrArg Prod.snd h').symm
         subst h2'
         first
           | exact le_trans (escPair_length _ _)
               (by simp [List.length]; omega)
           | (simp [List.length]; omega)
           | simp [List.length])

/-- Decode one escape sequence (the input starts right after the backslash):
the decoded character and the remaining input, `none` on an invalid escape. -/
def escStep : List Char → Option (Char × List Char)
  | [] => none
  | e :: rest2 =>
    if e = '"' then some ('"', rest2)
    else if e = '\\' then some ('\\', rest2)
    else if e = '/' then some ('/', rest2)
    else if e = 'b' then some (Char.ofNat 8, rest2)
    else if e = 'f' then some (Char.ofNat 12, rest2)
    else if e = 'n' then some (Char.ofNat 10, rest2)
    else if e = 'r' then some (Char.ofNat 13, rest2)
    else if e = 't' then some (Char.ofNat 9, rest2)
    else if e = 'u' then escUnicode rest2
    else none

theorem escStep_length : ∀ (r : List Char) (d : Char) (r2 : List Char),
    escStep r = some (d, r2) → r2.length ≤ r.length := by
  intro r d r2 h
  unfold escStep at h
  repeat' split at h
  all_goals
    first
      | exact Option.noConfusion h
      | (injection h with h'
         have h2' : r2 = _ := (congrArg Prod.snd h').symm
         subst h2'
         simp [List.length])
      | (have hlen := escUnicode_length _ d r2 h
         simp [List.length]
         omega)

/-- Fuel-indexed JSON-string-body parser; each decoded character consumes
one unit of fuel and at least one input character, so fuel `l.length + 1`
always suffices. -/
def parseStringBodyF : Nat → List Char → Option (JStr × List Char)
  | 0, _ => none
  | _ + 1, [] => none
  | n + 1, c :: rest =>
    if c = '"' then some ([], rest)
    else if c = '\\' then
      match escStep rest with
      | none => none
      | some (d, rest2) => consStr d (parseStringBodyF n rest2)
    else if c.toNat < 32 then none
    else consStr c (parseStringBodyF n rest)

/-- Parse a JSON string body (after the opening quote), returning the decoded
string and the input after the closing quote. -/
def parseStringBody (l : List Char) : Option (JStr × List Char) :=
  parseStringBodyF (l.length + 1) l

def digVal (c : Char) : Option Nat :=
  if '0' ≤ c ∧ c ≤ '9' then some (c.toNat - 48) else none

def takeDigits : List Char → List Nat × List Char
  | [] => ([], [])
  | c :: s =>
    match digVal c with
    | some d => ((takeDigits s).1.cons d, (takeDigits s).2)
    | none => ([], c :: s)

def digitsToNat (ds : List Nat) : Nat := ds.foldl (fun a d => a * 10 + d) 0

/-- Fraction part `.digits` (empty when absent). -/
def parseFrac : List Char → Option (List Nat × List Char)
  | '.' :: t =>
    match takeDigits t with
    | ([], _) => none
    | (ds, r) => some (ds, r)
  | s => some ([], s)

/-- Exponent part `eN`/`EN` (0 when absent). -/
def parseExp : List Char → Option (Int × List Char)
  | [] => some (0, [])
  | c :: t =>
    if c = 'e' ∨ c = 'E' then
      match t with
      | '+' :: u =>
        match takeDigits u with
        | ([], _) => none
        | (ds, r) => some (Int.ofNat (digitsToNat ds), r)
      | '-' :: u =>
        match takeDigits u with
        | ([], _) => none
        | (ds, r) => some (-Int.ofNat (digitsToNat ds), r)
      | u =>
        match takeDigits u with
        | ([], _) => none
        | (ds, r) => some (Int.ofNat (digitsToNat ds), r)
    else some (0, c :: t)

/-- Unsigned JSON number (strict grammar: no leading zeros). -/
def parseNumAbs (t : List Char) : Option (Int × Int × List Char) :=
  match takeDigits t with
  | ([], _) => none
  | (d :: ds, s2) =>
    if d = 0 ∧ ds ≠ [] then none
    else
      match parseFrac s2 with
      | none => none
      | some (fds, s3) =>
        match parseExp s3 with
        | none => none
        | some (ex, s4) =>
          some (Int.ofNat (digitsToNat (d :: ds ++ fds)),
            ex - Int.ofNat fds.length, s4)

/-- JSON number, with optional leading minus. -/
def parseNumberBody : List Char → Option (Int × Int × List Char)
  | '-' :: t => (parseNumAbs t).map (fun p => (-p.1, p.2.1, p.2.2))
  | t => parseNumAbs t

mutual

/-- Parse one JSON value at the head of the input (no leading whitespace);
`fuel` bounds the nesting depth. -/
def parseVal : Nat → List Char → Option (Js × List Char)
  | 0, _ => none
  | _ + 1, [] => none
  | n + 1, c :: r =>
    if c = '"' then (parseStringBody r).map (fun p => (Js.str p.1, p.2))
    else if c = 't' then
      match r with
      | 'r' :: 'u' :: 'e' :: rest => some (Js.bool true, rest)
      | _ => none
    else if c = 'f' then
      match r with
      | 'a' :: 'l' :: 's' :: 'e' :: rest => some (Js.bool false, rest)
      | _ => none
    else if c = 'n' then
      match r with
      | 'u' :: 'l' :: 'l' :: rest => some (Js.null, rest)
      | _ => none
    else if c = '[' then
      match skipWs r with
      | ']' :: rest => some (Js.arr [], rest)
      | r2 => (parseElems n r2).map (fun p => (Js.arr p.1, p.2))
    else if c = Char.ofNat 123 then
      match skipWs r with
      | [] => none
      | c2 :: rest =>
        if c2 = Char.ofNat 125 then some (Js.obj [], rest)
        else (parseMembers n (c2 :: rest)).map (fun p => (Js.obj p.1, p.2))
    else (parseNumberBody (c :: r)).map (fun p => (Js.num p.1 p.2.1, p.2.2))

/-- Parse the elements of a non-empty JSON array, including the closing
bracket. -/
def parseElems : Nat → List Char → Option (List Js × List Char)
  | 0, _ => none
  | n + 1, s =>
    match parseVal n s with
    | none => none
    | some (v, r) =>
      match skipWs r with
      | ',' :: r2 => (parseElems n (skipWs r2)).map (fun p => (v :: p.1, p.2))
      | ']' :: r2 => some ([v], r2)
      | _ => none

/-- Parse the members of a non-empty JSON object, including the closing
brace. -/
def parseMembers : Nat → List Char → Option (List (JStr × Js) × List Char)
  | 0, _ => none
  | n + 1, s =>
    match s with
    | '"' :: r =>
      match parseStringBody r with
      | none => none
      | some (key, r2) =>
        match skipWs r2 with
        | ':' :: r3 =>
          match parseVal n (skipWs r3) with
          | none => none
          | some (v, r4) =>
            match skipWs r4 with
            | ',' :: r5 =>
              (parseMembers n (skipWs r5)).map (fun p => ((key, v) :: p.1, p.2))
            | c :: r5 =>
              if c = Char.ofNat 125 then some ([(key, v)], r5) else none
            | [] => none
        | _ => none
    | _ => none

end

/-- `JSON.parse`: parse one value surrounded by optional whitespace; fail if
anything but whitespace remains. -/
def jsonParse (s : List Char) : Option Js :=
  match parseVal (s.length + 1) (skipWs s) with
  | some (v, rest) => if (skipWs rest).isEmpty then some v else none
  | none => none

/-! ## User store

The account store is a collaborator outside the routed file (a Mongoose
`User` model).  Modelled from the spec: records carry the five GitHub
linkage fields (absent unless linked; the access token is excluded from
default projections, which the embedding reflects by which fields each
handler reads), any other account data is untouched by this module, and
records are resolved by id.  A lookup with a non-string decoded id never
resolves. -/

structure UserRec where
  githubAccessToken : Option Js := none
  githubUsername : Option Js := none
  githubId : Option Js := none
  githubProfileUrl : Option Js := none
  githubConnectedAt : Option Nat := none
  otherData : List (JStr × Js) := []

/-- The persisted user collection, keyed by user id. -/
abbrev Store := List (JStr × UserRec)

/-- `User.findById` (first record with the given id). -/
def findById (store : Store) (k : JStr) : Option UserRec :=
  store.lookup k

/-- `user.save()`: persist the (mutated) record under its id. -/
def saveUser (store : Store) (k : JStr) (u : UserRec) : Store :=
  store.map (fun p => if p.1 = k then (k, u) else p)

/-- `User.findById(decodedState.userId)` with a decoded JSON value as id. -/
def findByJsId (store : Store) (v : Js) : Option UserRec :=
  match v with
  | .str k => findById store k
  | _ => none

/-! ## The routes of `src/server/routes/githubAuth.js` -/

/-- Outcome of `GET /auth` (`beginAuthorization`). -/
inductive AuthBeginOut where
  | redirect (url : JStr) : AuthBeginOut
  | notConfigured : AuthBeginOut

/-- The OAuth `state`: `Buffer.from(JSON.stringify({ userId })).toString('base64')`
(line 48 of the route file). -/
def encodeState (userId : JStr) : JStr :=
  base64Encode (utf8Encode (jsonStringifyUserId userId))

/-- `GET /auth`: build the GitHub authorization redirect (lines 41-61).
`GITHUB_CLIENT_ID` is checked for JS truthiness; the callback URL constant
appears `encodeURIComponent`-encoded as in the built URL. -/
def beginAuthorization (clientId : Option JStr) (callerId : JStr) :
    AuthBeginOut :=
  if !queryTruthy clientId then .notConfigured
  else
    .redirect ("https://github.com/login/oauth/authorize?client_id=".toList
      ++ clientId.getD []
      ++ "&redirect_uri=http%3A%2F%2Flocalhost%3A5000%2Fapi%2Fgithub%2Fcallback&scope=repo&state=".toList
      ++ encodeState callerId)

/-- Outcome of `GET /callback`: a redirect to the frontend success URL or to
the error URL with a `reason` query parameter. -/
inductive CallbackOut where
  | success : CallbackOut
  | failure (reason : String) : CallbackOut
deriving DecidableEq, Repr

/-- The environment of one `/callback` request: the two upstream GitHub
responses (`Except.error` = the `axios` call threw: network failure or
non-2xx status) and whether `user.save()` succeeds. -/
structure CallbackEnv where
  tokenResp : Except Unit Js
  profileResp : Except Unit Js
  saveOk : Bool
  now : Nat

/-- Is this JSON value `null`?  (Property access on `null` throws a
`TypeError`, which the route's `catch` turns into `server_error`.) -/
def isJsNull : Js → Bool
  | .null => true
  | _ => false

/-- The state-decoding pipeline of the callback (line 84):
`JSON.parse(Buffer.from(state, 'base64').toString())`. -/
def decodeState (state : JStr) : Option Js :=
  jsonParse (utf8Decode (base64Decode state))

/-- `GET /api/github/callback` (lines 66-155), returning the redirect outcome
and the resulting store.  Each guard is translated in source order:
`error` truthy → `oauth_denied`; missing/empty `code` or `state` →
`missing_params`; `JSON.parse` failure → `invalid_state`; property access on
a parsed `null` throws → `server_error`; falsy `decodedState.userId` →
`invalid_state`; `axios` throw → `server_error`; token response `error` set
or `access_token` falsy → `token_exchange_failed`; profile without truthy
`login` → `profile_fetch_failed`; unresolved user → `user_not_found`;
otherwise the five linkage fields are assigned and saved. -/
def completeAuthorization (code state error : Option JStr)
    (env : CallbackEnv) (store : Store) : CallbackOut × Store :=
  if queryTruthy error then (.failure "oauth_denied", store)
  else if !queryTruthy code || !queryTruthy state then
    (.failure "missing_params", store)
  else
    match decodeState (state.getD []) with
    | none => (.failure "invalid_state", store)
    | some decodedState =>
      if isJsNull decodedState then (.failure "server_error", store)
      else
        match jsGet decodedState "userId".toList with
        | none => (.failure "invalid_state", store)
        | some uid =>
          if !jsTruthy uid then (.failure "invalid_state", store)
          else
            match env.tokenResp with
            | .error _ => (.failure "server_error", store)
            | .ok tokenData =>
              if isJsNull tokenData then (.failure "server_error", store)
              else if jsTruthyOpt (jsGet tokenData "error".toList)
                  || !jsTruthyOpt (jsGet tokenData "access_token".toList) then
                (.failure "token_exchange_failed", store)
              else
                match jsGet tokenData "access_token".toList with
                | none => (.failure "token_exchange_failed", store)
                | some accessToken =>
                  match env.profileResp with
                  | .error _ => (.failure "server_error", store)
                  | .ok githubUser =>
                    if isJsNull githubUser then (.failure "server_error", store)
                    else if !jsTruthyOpt (jsGet githubUser "login".toList) then
                      (.failure "profile_fetch_failed", store)
                    else
                      match findByJsId store uid with
                      | none => (.failure "user_not_found", store)
                      | some user =>
                        let user' : UserRec :=
                          { user with
                            githubAccessToken := some accessToken,
                            githubUsername := jsGet githubUser "login".toList,
                            githubId := jsGet githubUser "id".toList,
                            githubProfileUrl := jsGet githubUser "html_url".toList,
                            githubConnectedAt := some env.now }
                        match uid with
                        | .str k =>
                          if env.saveOk then (.success, saveUser store k user')
                          else (.failure "server_error", store)
                        | _ => (.failure "server_error", store)

/-- The JSON body of a successful `GET /status` response. -/
structure StatusBody where
  success : Bool
  connected : Bool
  githubUsername : Option Js
  connectedAt : Option Nat

/-- Outcome of `GET /status`. -/
inductive StatusOut where
  | ok (body : StatusBody) : StatusOut
  | serverError : StatusOut

/-- The response body built from the caller's record (lines 164-169); the
record is fetched with `.select('githubUsername githubConnectedAt')`, and
only those two fields are read. -/
def statusBodyOf (u : UserRec) : StatusBody :=
  { success := true,
    connected := jsTruthyOpt u.githubUsername,
    githubUsername := if jsTruthyOpt u.githubUsername
      then u.githubUsername else none,
    connectedAt := u.githubConnectedAt }

/-- `GET /api/github/status` (lines 160-174).  A missing record makes the
field read on line 166 throw, which the `catch` turns into a 500. -/
def getStatus (store : Store) (callerId : JStr) : StatusOut :=
  match findById store callerId with
  | none => .serverError
  | some u => .ok (statusBodyOf u)

/-- Outcome of `POST /disconnect`. -/
inductive DisconnectOut where
  | ok : DisconnectOut
  | serverError : DisconnectOut
deriving DecidableEq

/-- Clearing the five linkage fields (lines 184-188: each is assigned
`undefined`, so it is absent after save). -/
def clearGithub (u : UserRec) : UserRec :=
  { u with
    githubAccessToken := none,
    githubUsername := none,
    githubId := none,
    githubProfileUrl := none,
    githubConnectedAt := none }

/-- `POST /api/github/disconnect` (lines 179-200).  A missing record makes
the field assignment on line 184 throw → 500 via the `catch`; a failing
`save()` likewise → 500 with nothing persisted. -/
def disconnect (store : Store) (callerId : JStr) (saveOk : Bool) :
    DisconnectOut × Store :=
  match findById store callerId with
  | none => (.serverError, store)
  | some u =>
    if saveOk then (.ok, saveUser store callerId (clearGithub u))
    else (.serverError, store)

/-- One GitHub repository reduced to the summary shape of lines 226-237. -/
structure RepoSummary where
  id : Option Js
  name : Option Js
  fullName : Option Js
  description : Option Js
  «private» : Option Js
  htmlUrl : Option Js
  language : Option Js
  updatedAt : Option Js
  stargazersCount : Option Js
  forksCount : Option Js

/-- The per-entry mapping of lines 226-237. -/
def toRepoSummary (repo : Js) : RepoSummary :=
  { id := jsGet repo "id".toList,
    name := jsGet repo "name".toList,
    fullName := jsGet repo "full_name".toList,
    description := jsGet repo "description".toList,
    «private» := jsGet repo "private".toList,
    htmlUrl := jsGet repo "html_url".toList,
    language := jsGet repo "language".toList,
    updatedAt := jsGet repo "updated_at".toList,
    stargazersCount := jsGet repo "stargazers_count".toList,
    forksCount := jsGet repo "forks_count".toList }

/-- How an `axios` call to GitHub failed: an HTTP error status, or no
response at all. -/
inductive AxiosFailure where
  | httpStatus (status : Nat) : AxiosFailure
  | network : AxiosFailure

/-- Outcome of `GET /repositories`. -/
inductive RepoOut where
  | ok (repositories : List RepoSummary) : RepoOut
  | notLinked : RepoOut
  | invalidToken : RepoOut
  | serverError : RepoOut

/-- `GET /api/github/repositories` (lines 205-255), returning the outcome
and whether the outbound GitHub call was made.  The record is fetched with
`.select('+githubAccessToken')` (the explicit sensitive-field projection);
a falsy stored token → 400 before any outbound call; an upstream 401 →
`invalidToken`; any other throw (including `.map` on a non-array body or a
property read on a `null` entry) → 500. -/
def listRepositories (store : Store) (callerId : JStr)
    (reposResp : Except AxiosFailure Js) : RepoOut × Bool :=
  match findById store callerId with
  | none => (.serverError, false)
  | some user =>
    if !jsTruthyOpt user.githubAccessToken then (.notLinked, false)
    else
      match reposResp with
      | .error (.httpStatus s) =>
        if s = 401 then (.invalidToken, true) else (.serverError, true)
      | .error .network => (.serverError, true)
      | .ok data =>
        match data with
        | .arr xs =>
          if xs.any isJsNull then (.serverError, true)
          else (.ok (xs.map toRepoSummary), true)
        | _ => (.serverError, true)

/-! ## Linkage-field invariants -/

/-- All five GitHub linkage fields are populated. -/
def linkAllSet (u : UserRec) : Bool :=
  u.githubAccessToken.isSome && u.githubUsername.isSome &&
  u.githubId.isSome && u.githubProfileUrl.isSome &&
  u.githubConnectedAt.isSome

/-- All five GitHub linkage fields are absent. -/
def linkAllClear (u : UserRec) : Bool :=
  u.githubAccessToken.isNone && u.githubUsername.isNone &&
  u.githubId.isNone && u.githubProfileUrl.isNone &&
  u.githubConnectedAt.isNone

/-- Every record in the store has its linkage fields all set or all clear. -/
def StoreInv (store : Store) : Prop :=
  ∀ p ∈ store, linkAllSet p.2 ∨ linkAllClear p.2

/-! ## Round trip of the OAuth state -/

theorem hexVal_hexDigit {n : Nat} (h : n < 16) :
    hexVal (hexDigit n) = some n := by
  interval_cases n <;> decide

theorem consStr_some (c : Char) (s : JStr) (r : List Char) :
    consStr c (some (s, r)) = some (c :: s, r) := rfl

/-- The string parser inverts `JSON.stringify`'s escaping, for every
string. -/
theorem parseStringBodyF_escape : ∀ (s : JStr) (rest : List Char) (f : Nat),
    s.length < f →
    parseStringBodyF f (jsonEscape s ++ '"' :: rest) = some (s, rest)
  | [], rest, 0, h => by omega
  | [], rest, m + 1, _ => by
      simp only [jsonEscape, List.nil_append]
      unfold parseStringBodyF
      rw [if_pos rfl]
  | c :: s, rest, 0, h => by omega
  | c :: s, rest, m + 1, h => by
      have ih := parseStringBodyF_escape s rest m
        (by simp only [List.length_cons] at h; omega)
      rw [jsonEscape, List.append_assoc]
      by_cases hq : c = '"'
      · subst hq
        have hstep : escStep ('"' :: (jsonEscape s ++ '"' :: rest))
            = some ('"', jsonEscape s ++ '"' :: rest) := rfl
        simp [jsonEscapeChar, parseStringBodyF, hstep, ih, consStr]
      · by_cases hb : c = '\\'
        · subst hb
          have hstep : escStep ('\\' :: (jsonEscape s ++ '"' :: rest))
              = some ('\\', jsonEscape s ++ '"' :: rest) := rfl
          simp [jsonEscapeChar, parseStringBodyF, hstep, ih, consStr]
        · by_cases h8 : c.toNat = 8
          · rw [show jsonEscapeChar c = ['\\', 'b'] by
              simp [jsonEscapeChar, hq, hb, h8]]
            have hc : Char.ofNat 8 = c := by
              rw [← h8, Char.ofNat_toNat]
            have hstep : escStep ('b' :: (jsonEscape s ++ '"' :: rest))
                = some (c, jsonEscape s ++ '"' :: rest) := by
              rw [← hc]
              rfl
            simp [parseStringBodyF, hstep, ih, consStr]
          · by_cases h9 : c.toNat = 9
            · rw [show jsonEscapeChar c = ['\\', 't'] by
                simp [jsonEscapeChar, hq, hb, h8, h9]]
              have hc : Char.ofNat 9 = c := by
                rw [← h9, Char.ofNat_toNat]
              have hstep : escStep ('t' :: (jsonEscape s ++ '"' :: rest))
                  = some (c, jsonEscape s ++ '"' :: rest) := by
                rw [← hc]
                rfl
              simp [parseStringBodyF, hstep, ih, consStr]
            · by_cases h10 : c.toNat = 10
              · rw [show jsonEscapeChar c = ['\\', 'n'] by
                  simp [jsonEscapeChar, hq, hb, h8, h9, h10]]
                have hc : Char.ofNat 10 = c := by
                  rw [← h10, Char.ofNat_toNat]
                have hstep : escStep ('n' :: (jsonEscape s ++ '"' :: rest))
                    = some (c, jsonEscape s ++ '"' :: rest) := by
                  rw [← hc]
                  rfl
                simp [parseStringBodyF, hstep, ih, consStr]
              · by_cases h12 : c.toNat = 12
                · rw [show jsonEscapeChar c = ['\\', 'f'] by
                    simp [jsonEscapeChar, hq, hb, h8, h9, h10, h12]]
                  have hc : Char.ofNat 12 = c := by
                    rw [← h12, Char.ofNat_toNat]
                  have hstep : escStep ('f' :: (jsonEscape s ++ '"' :: rest))
                      = some (c, jsonEscape s ++ '"' :: rest) := by
                    rw [← hc]
                    rfl
                  simp [parseStringBodyF, hstep, ih, consStr]
                · by_cases h13 : c.toNat = 13
                  · rw [show jsonEscapeChar c = ['\\', 'r'] by
                      simp [jsonEscapeChar, hq, hb, h8, h9, h10, h12, h13]]
                    have hc : Char.ofNat 13 = c := by
                      rw [← h13, Char.ofNat_toNat]
                    have hstep : escStep ('r' :: (jsonEscape s ++ '"' :: rest))
                        = some (c, jsonEscape s ++ '"' :: rest) := by
                      rw [← hc]
                      rfl
                    simp [parseStringBodyF, hstep, ih, consStr]
                  · by_cases hlt : c.toNat < 32
                    · rw [show jsonEscapeChar c = ['\\', 'u', '0', '0',
                          hexDigit (c.toNat / 16), hexDigit (c.toNat % 16)] by
                        simp [jsonEscapeChar, hq, hb, h8, h9, h10, h12, h13, hlt]]
                      have hv1 : hexVal (hexDigit (c.toNat / 16)) =
                          some (c.toNat / 16) := hexVal_hexDigit (by omega)
                      have hv2 : hexVal (hexDigit (c.toNat % 16)) =
                          some (c.toNat % 16) := hexVal_hexDigit (by omega)
                      have hc : Char.ofNat c.toNat = c := Char.ofNat_toNat c
                      have hns1 : ¬(55296 ≤ c.toNat ∧ c.toNat < 56320) := by
                        omega
                      have hns2 : ¬(56320 ≤ c.toNat ∧ c.toNat < 57344) := by
                        omega
                      have huni : escUnicode ('0' :: '0' ::
                          hexDigit (c.toNat / 16) :: hexDigit (c.toNat % 16) ::
                          (jsonEscape s ++ '"' :: rest))
                          = some (c, jsonEscape s ++ '"' :: rest) := by
                        simp [escUnicode, hv1, hv2,
                          show hexVal '0' = some 0 from rfl,
                          Nat.div_add_mod, Nat.div_add_mod', hns1, hns2, hc]
                      have hstep : escStep ('u' :: ('0' :: '0' ::
                          hexDigit (c.toNat / 16) :: hexDigit (c.toNat % 16) ::
                          (jsonEscape s ++ '"' :: rest)))
                          = some (c, jsonEscape s ++ '"' :: rest) := by
                        simp [escStep, huni]
                      simp [parseStringBodyF, hstep, ih, consStr]
                    · rw [show jsonEscapeChar c = [c] by
                        simp [jsonEscapeChar, hq, hb, h8, h9, h10, h12, h13, hlt]]
                      rw [List.cons_append, List.nil_append]
                      unfold parseStringBodyF
                      rw [if_neg hq, if_neg hb, if_neg hlt, ih, consStr_some]


theorem jsonEscape_length_ge : ∀ s : JStr, s.length ≤ (jsonEscape s).length
  | [] => by simp [jsonEscape]
  | c :: s => by
      rw [jsonEscape]
      simp only [List.length_append, List.length_cons]
      have h1 : 1 ≤ (jsonEscapeChar c).length := by
        unfold jsonEscapeChar
        repeat' split
        all_goals simp
      have h2 := jsonEscape_length_ge s
      omega

/-- The string parser inverts `JSON.stringify`'s escaping, for every
string. -/
theorem parseStringBody_escape (s : JStr) (rest : List Char) :
    parseStringBody (jsonEscape s ++ '"' :: rest) = some (s, rest) := by
  unfold parseStringBody
  apply parseStringBodyF_escape
  have hlen := jsonEscape_length_ge s
  simp only [List.length_append, List.length_cons]
  omega
theorem skipWs_cons (c : Char) (s : List Char) (h : isJsonWs c = false) :
    skipWs (c :: s) = c :: s := by
  simp [skipWs, h]

/-- Parsing a stringified JSON string at the head of the input. -/
theorem parseVal_quote (n : Nat) (s : JStr) (rest : List Char) :
    parseVal (n + 1) ('"' :: (jsonEscape s ++ '"' :: rest))
      = some (.str s, rest) := by
  simp [parseVal, parseStringBody_escape]

/-- Parsing the single member `"userId": "<uid>"` of the state object. -/
theorem parseMembers_userId (n : Nat) (uid : JStr) (rest : List Char) :
    parseMembers (n + 2) ('"' :: (jsonEscape "userId".toList ++
      ('"' :: ':' :: '"' :: (jsonEscape uid ++
        ('"' :: Char.ofNat 125 :: rest)))))
      = some ([("userId".toList, .str uid)], rest) := by
  rw [parseMembers]
  rw [show (jsonEscape "userId".toList ++
      ('"' :: ':' :: '"' :: (jsonEscape uid ++ ('"' :: Char.ofNat 125 :: rest))))
    = (jsonEscape "userId".toList ++
      '"' :: (':' :: '"' :: (jsonEscape uid ++ ('"' :: Char.ofNat 125 :: rest))))
    from rfl]
  rw [parseStringBody_escape]
  simp only []
  rw [skipWs_cons ':' _ rfl]
  split
  · rename_i r3 heq
    obtain ⟨-, hr⟩ := List.cons.injEq .. |>.mp heq
    subst hr
    rw [skipWs_cons '"' _ rfl]
    rw [show ('"' :: (jsonEscape uid ++ ('"' :: Char.ofNat 125 :: rest)))
      = ('"' :: (jsonEscape uid ++ '"' :: (Char.ofNat 125 :: rest))) from rfl]
    rw [parseVal_quote]
    simp only []
    rw [skipWs_cons (Char.ofNat 125) _ rfl]
    split
    · rename_i r5 heq2
      exact absurd (List.cons.injEq .. |>.mp heq2).1 (by decide)
    · rename_i c r5 hcomma heq2
      obtain ⟨hc, hr5⟩ := List.cons.injEq .. |>.mp heq2
      subst hr5
      rw [if_pos hc.symm]
    · rename_i heq2
      exact absurd heq2 (by simp)
  · rename_i x hne
    exact (hne _ rfl).elim

/-- Parsing the stringified state object at the head of the input. -/
theorem parseVal_stringifyUserId (n : Nat) (uid : JStr) (rest : List Char) :
    parseVal (n + 3) (jsonStringifyUserId uid ++ rest)
      = some (.obj [("userId".toList, .str uid)], rest) := by
  rw [show jsonStringifyUserId uid ++ rest = Char.ofNat 123 :: ('"' ::
      (jsonEscape "userId".toList ++ ('"' :: ':' :: '"' :: (jsonEscape uid ++
      ('"' :: Char.ofNat 125 :: rest))))) from by
    simp [jsonStringifyUserId, jsonQuote]]
  rw [parseVal]
  rw [if_neg (by decide), if_neg (by decide), if_neg (by decide),
    if_neg (by decide), if_neg (by decide), if_pos rfl]
  rw [skipWs_cons '"' _ rfl]
  · split
    · rename_i heq
      exact absurd heq (List.cons_ne_nil _ _)
    · rename_i c2 restk heq
      obtain ⟨hc2, hrk⟩ := List.cons.injEq .. |>.mp heq
      subst hc2
      subst hrk
      rw [if_neg (by decide)]
      rw [parseMembers_userId]
      rfl
  all_goals
    intro r h
    exact absurd (List.cons.injEq .. |>.mp h).1 (by decide)

theorem jsonStringifyUserId_length (uid : JStr) :
    (jsonStringifyUserId uid).length = (jsonEscape uid).length + 13 := by
  simp [jsonStringifyUserId, jsonQuote, jsonEscape,
    show (jsonEscapeChar 'u').length = 1 from rfl,
    show (jsonEscapeChar 's').length = 1 from rfl,
    show (jsonEscapeChar 'e').length = 1 from rfl,
    show (jsonEscapeChar 'r').length = 1 from rfl,
    show (jsonEscapeChar 'I').length = 1 from rfl,
    show (jsonEscapeChar 'd').length = 1 from rfl]
  omega

/-- `JSON.parse` inverts `JSON.stringify({ userId })`, for every userId. -/
theorem jsonParse_stringifyUserId (uid : JStr) :
    jsonParse (jsonStringifyUserId uid)
      = some (.obj [("userId".toList, .str uid)]) := by
  unfold jsonParse
  rw [show skipWs (jsonStringifyUserId uid) = jsonStringifyUserId uid ++ []
    from by
      rw [List.append_nil]
      rw [show jsonStringifyUserId uid = Char.ofNat 123 ::
        ((jsonQuote "userId".toList ++ ':' :: jsonQuote uid) ++
          [Char.ofNat 125]) from rfl]
      exact skipWs_cons _ _ rfl]
  rw [jsonStringifyUserId_length,
    show (jsonEscape uid).length + 13 + 1 = ((jsonEscape uid).length + 11) + 3
      from by omega]
  rw [parseVal_stringifyUserId]
  simp [skipWs]

/-- Every byte of the UTF-8 encoding is below 256. -/
theorem utf8EncodeChar_lt_256 (c : Char) : ∀ b ∈ utf8EncodeChar c, b < 256 := by
  have hval := char_toNat_valid c
  unfold utf8EncodeChar
  repeat' split
  all_goals intro b hb
  all_goals simp at hb
  all_goals omega

theorem utf8Encode_lt_256 : ∀ s : JStr, ∀ b ∈ utf8Encode s, b < 256
  | [] => by simp [utf8Encode]
  | c :: s => by
      intro b hb
      rw [utf8Encode] at hb
      rcases List.mem_append.mp hb with h | h
      · exact utf8EncodeChar_lt_256 c b h
      · exact utf8Encode_lt_256 s b h

/-- The full decoding pipeline of the callback inverts the full encoding
pipeline of `/auth`: base64-decode, UTF-8-decode and JSON-parse of the
generated state recover the `{ userId }` object. -/
theorem decodeState_encodeState (uid : JStr) :
    decodeState (encodeState uid)
      = some (.obj [("userId".toList, .str uid)]) := by
  unfold decodeState encodeState
  rw [base64Decode_base64Encode _ (utf8Encode_lt_256 _),
    utf8Decode_utf8Encode, jsonParse_stringifyUserId]

/-! ## Store lemmas -/

theorem StoreInv_saveUser (store : Store) (k : JStr) (u' : UserRec)
    (h : StoreInv store) (hu : linkAllSet u' = true ∨ linkAllClear u' = true) :
    StoreInv (saveUser store k u') := by
  intro p hp
  obtain ⟨q, hq, hpq⟩ := List.mem_map.mp hp
  by_cases hk : q.1 = k
  · rw [← hpq]
    simp only [saveUser, hk, if_pos rfl]
    exact hu
  · rw [← hpq]
    simp only [hk, if_neg hk]
    exact h q hq

theorem findById_saveUser (store : Store) (k : JStr) (u w : UserRec)
    (h : findById store k = some u) :
    findById (saveUser store k w) k = some w := by
  induction store with
  | nil => simp [findById] at h
  | cons p rest ih =>
    unfold findById at h
    unfold findById saveUser at ih ⊢
    by_cases hk : p.1 = k
    · rw [List.map_cons, if_pos hk, List.lookup]
      simp
    · have hbeq : (k == p.1) = false := by
        simp only [beq_eq_false_iff_ne, ne_eq]
        exact fun hh => hk hh.symm
      simp only [List.lookup, hbeq] at h
      rw [List.map_cons, if_neg hk]
      simp only [List.lookup, hbeq]
      exact ih h

theorem saveUser_saveUser (store : Store) (k : JStr) (a b : UserRec) :
    saveUser (saveUser store k a) k b = saveUser store k b := by
  unfold saveUser
  rw [List.map_map]
  apply List.map_congr_left
  intro p hp
  by_cases hk : p.1 = k
  · simp [hk]
  · simp [hk]

theorem saveUser_self (store : Store) (k : JStr) (u : UserRec)
    (h : ∀ p ∈ store, p.1 = k → p.2 = u) :
    saveUser store k u = store := by
  unfold saveUser
  induction store with
  | nil => rfl
  | cons p rest ih =>
    rw [List.map_cons]
    have htail : List.map (fun p => if p.1 = k then (k, u) else p) rest
        = rest := ih (fun q hq hqk => h q (by simp [hq]) hqk)
    rw [htail]
    by_cases hk : p.1 = k
    · rw [if_pos hk]
      have hp2 : p.2 = u := h p (by simp) hk
      rw [show (k, u) = p from by rw [← hk, ← hp2]]
    · rw [if_neg hk]

theorem clearGithub_clearGithub (u : UserRec) :
    clearGithub (clearGithub u) = clearGithub u := rfl

theorem clearGithub_allClear (u : UserRec) :
    linkAllClear (clearGithub u) = true := rfl

theorem clearGithub_of_allClear (u : UserRec) (h : linkAllClear u = true) :
    clearGithub u = u := by
  unfold linkAllClear at h
  simp only [Bool.and_eq_true, Option.isNone_iff_eq_none] at h
  obtain ⟨⟨⟨⟨h1, h2⟩, h3⟩, h4⟩, h5⟩ := h
  unfold clearGithub
  cases u
  simp_all

/-! ## Fixtures for concrete runs -/

/-- An environment whose upstream responses are both `null` bodies. -/
def envNull : CallbackEnv := ⟨.ok .null, .ok .null, true, 0⟩

/-- A well-formed token-exchange response body. -/
def tokBody : Js := .obj [("access_token".toList, .str "tok".toList)]

/-- A well-formed profile response body. -/
def profBody : Js :=
  .obj [("login".toList, .str "octo".toList),
        ("id".toList, .num 1 0),
        ("html_url".toList, .str "https://github.com/octo".toList)]

/-- A profile response carrying `login` but no `id` and no `html_url`. -/
def profNoId : Js := .obj [("login".toList, .str "octo".toList)]

/-- A fresh, unlinked user record. -/
def userFresh : UserRec := {}

/-- A store holding the single unlinked user `u1`. -/
def store1 : Store := [("u1".toList, userFresh)]

/-! ## The claims -/

/-- **C10**: `disconnect` assumes the caller's record exists: when the lookup
returns no record, the field assignment on the absent record faults and the
request ends in the 500 branch, with the store untouched. -/
theorem C10_disconnect_requires_record (store : Store) (callerId : JStr)
    (saveOk : Bool) (h : findById store callerId = none) :
    disconnect store callerId saveOk = (.serverError, store) := by
  simp [disconnect, h]

theorem C10_disconnect_requires_record_witness :
    findById [] "u1".toList = none ∧
      disconnect [] "u1".toList true = (.serverError, []) :=
  ⟨rfl, C10_disconnect_requires_record [] "u1".toList true rfl⟩

/-- **C8**: a caller whose record exists but stores no access token gets the
not-linked 400 from `listRepositories`, and no outbound GitHub call is
made. -/
theorem C8_listRepositories_not_linked (store : Store) (callerId : JStr)
    (u : UserRec) (resp : Except AxiosFailure Js)
    (hfind : findById store callerId = some u)
    (htok : u.githubAccessToken = none) :
    listRepositories store callerId resp = (.notLinked, false) := by
  simp [listRepositories, hfind, htok, jsTruthyOpt]

theorem C8_listRepositories_not_linked_witness :
    findById store1 "u1".toList = some userFresh ∧
      userFresh.githubAccessToken = none ∧
      listRepositories store1 "u1".toList (.ok (.arr []))
        = (.notLinked, false) :=
  ⟨rfl, rfl, C8_listRepositories_not_linked store1 "u1".toList userFresh
    (.ok (.arr [])) rfl rfl⟩

/-- **C6**: for a caller whose record exists (and whose `githubUsername`, as
every record this module writes, is absent or truthy), `getStatus` answers
with `connected` true iff the username is set, passes `githubUsername` and
`connectedAt` through (`null` when absent), and its response is independent
of the stored access token (the token is excluded by the field projection
and never read). -/
theorem C6_getStatus_projection (store : Store) (callerId : JStr)
    (u : UserRec) (hfind : findById store callerId = some u)
    (hwf : u.githubUsername = none ∨
      ∃ v, u.githubUsername = some v ∧ jsTruthy v = true) :
    getStatus store callerId = .ok (statusBodyOf u)
    ∧ ((statusBodyOf u).connected = true ↔ (u.githubUsername).isSome = true)
    ∧ (statusBodyOf u).githubUsername = u.githubUsername
    ∧ (statusBodyOf u).connectedAt = u.githubConnectedAt
    ∧ ∀ t, statusBodyOf { u with githubAccessToken := t } = statusBodyOf u := by
  refine ⟨by simp [getStatus, hfind], ?_, ?_, rfl, fun t => rfl⟩
  · rcases hwf with h | ⟨v, hv, htr⟩
    · simp [statusBodyOf, h, jsTruthyOpt]
    · simp [statusBodyOf, hv, jsTruthyOpt, htr]
  · rcases hwf with h | ⟨v, hv, htr⟩
    · simp [statusBodyOf, h, jsTruthyOpt]
    · simp [statusBodyOf, hv, jsTruthyOpt, htr]

/-- A linked user record, as a successful `completeAuthorization` writes. -/
def userLinked : UserRec :=
  { githubAccessToken := some (.str "tok".toList),
    githubUsername := some (.str "octo".toList),
    githubId := some (.num 1 0),
    githubProfileUrl := some (.str "https://github.com/octo".toList),
    githubConnectedAt := some 5 }

/-- A store holding the single linked user `u2`. -/
def store2 : Store := [("u2".toList, userLinked)]

theorem C6_getStatus_projection_witness :
    findById store2 "u2".toList = some userLinked ∧
      getStatus store2 "u2".toList = .ok (statusBodyOf userLinked) ∧
      (statusBodyOf userLinked).connected = true := by
  refine ⟨rfl, ?_, by decide⟩
  exact (C6_getStatus_projection store2 "u2".toList userLinked rfl
    (Or.inr ⟨_, rfl, by decide⟩)).1

/-- **C7**: `disconnect` is idempotent.  (a) A caller whose record exists
with no linkage fields set gets the success acknowledgment and the store is
observably unchanged (the record's id is unique in the store, as Mongo ids
are).  (b) For any store, disconnecting twice yields the same store as
disconnecting once. -/
theorem C7_disconnect_idempotent :
    (∀ (store : Store) (callerId : JStr) (u : UserRec),
      findById store callerId = some u →
      (∀ p ∈ store, p.1 = callerId → p.2 = u) →
      linkAllClear u = true →
      disconnect store callerId true = (.ok, store))
    ∧ (∀ (store : Store) (callerId : JStr) (saveOk : Bool),
        (disconnect (disconnect store callerId saveOk).2 callerId saveOk).2
          = (disconnect store callerId saveOk).2) := by
  constructor
  · intro store callerId u hfind huniq hclear
    unfold disconnect
    rw [hfind]
    simp only []
    rw [if_pos trivial, clearGithub_of_allClear u hclear,
      saveUser_self store callerId u huniq]
  · intro store callerId saveOk
    unfold disconnect
    cases hfind : findById store callerId with
    | none => simp [hfind]
    | some u =>
      cases saveOk with
      | false => simp [hfind]
      | true =>
        have h2 : findById (saveUser store callerId (clearGithub u)) callerId
            = some (clearGithub u) :=
          findById_saveUser store callerId u (clearGithub u) hfind
        simp [hfind, h2, clearGithub_clearGithub, saveUser_saveUser]

theorem C7_disconnect_idempotent_witness :
    disconnect store1 "u1".toList true = (.ok, store1) ∧
      (disconnect (disconnect store2 "u2".toList true).2 "u2".toList true).2
        = (disconnect store2 "u2".toList true).2 := by
  constructor
  · exact C7_disconnect_idempotent.1 store1 "u1".toList userFresh rfl
      (by intro p hp hk
          have hp1 : p = ("u1".toList, userFresh) :=
            List.mem_singleton.mp hp
          rw [hp1])
      (by decide)
  · exact C7_disconnect_idempotent.2 store2 "u2".toList true

/-- **C9**: for a linked caller, a GitHub repositories response array of
length N maps to exactly N summaries, in order, each the corresponding raw
entry with `full_name`→`fullName`, `html_url`→`htmlUrl`,
`stargazers_count`→`stargazersCount`, `forks_count`→`forksCount`,
`updated_at`→`updatedAt` renamed and `id`, `name`, `description`, `private`,
`language` passed through; `RepoSummary` has no other fields.  (Raw entries
are GitHub repository objects, in particular not `null`, on which the
field accesses would fault.) -/
theorem C9_listRepositories_mapping (store : Store) (callerId : JStr)
    (u : UserRec) (xs : List Js)
    (hfind : findById store callerId = some u)
    (htok : jsTruthyOpt u.githubAccessToken = true)
    (hnn : ∀ x ∈ xs, isJsNull x = false) :
    listRepositories store callerId (.ok (.arr xs))
      = (.ok (xs.map toRepoSummary), true)
    ∧ (xs.map toRepoSummary).length = xs.length
    ∧ ∀ (i : Nat) (hi : i < xs.length),
        (xs.map toRepoSummary).get ⟨i, by simpa using hi⟩ =
          { id := jsGet (xs.get ⟨i, hi⟩) "id".toList,
            name := jsGet (xs.get ⟨i, hi⟩) "name".toList,
            fullName := jsGet (xs.get ⟨i, hi⟩) "full_name".toList,
            description := jsGet (xs.get ⟨i, hi⟩) "description".toList,
            «private» := jsGet (xs.get ⟨i, hi⟩) "private".toList,
            htmlUrl := jsGet (xs.get ⟨i, hi⟩) "html_url".toList,
            language := jsGet (xs.get ⟨i, hi⟩) "language".toList,
            updatedAt := jsGet (xs.get ⟨i, hi⟩) "updated_at".toList,
            stargazersCount := jsGet (xs.get ⟨i, hi⟩) "stargazers_count".toList,
            forksCount := jsGet (xs.get ⟨i, hi⟩) "forks_count".toList } := by
  refine ⟨?_, by simp, ?_⟩
  · unfold listRepositories
    rw [hfind]
    simp only [htok]
    rw [show (xs.any isJsNull) = false from by
      rw [List.any_eq_false]
      intro x hx
      simp [hnn x hx]]
    simp
  · intro i hi
    rw [List.get_map]
    rfl

/-- A repository entry as GitHub returns it. -/
def repoRaw : Js :=
  .obj [("id".toList, .num 7 0),
        ("name".toList, .str "echo".toList),
        ("full_name".toList, .str "octo/echo".toList),
        ("description".toList, .null),
        ("private".toList, .bool false),
        ("html_url".toList, .str "https://github.com/octo/echo".toList),
        ("language".toList, .str "JavaScript".toList),
        ("updated_at".toList, .str "2024-01-01T00:00:00Z".toList),
        ("stargazers_count".toList, .num 3 0),
        ("forks_count".toList, .num 1 0)]

theorem C9_listRepositories_mapping_witness :
    listRepositories store2 "u2".toList (.ok (.arr [repoRaw]))
      = (.ok [toRepoSummary repoRaw], true) ∧
    (toRepoSummary repoRaw).fullName = some (.str "octo/echo".toList) := by
  constructor
  · exact (C9_listRepositories_mapping store2 "u2".toList userLinked
      [repoRaw] rfl (by decide) (by decide)).1
  · rfl

/-- **C3**: for every `userId`, encoding `{userId}` as the base64 JSON state
(as `beginAuthorization` does on line 48) and then decoding it as the
callback does (base64-decode, UTF-8-decode, `JSON.parse`, read `userId`)
recovers exactly the original `userId`. -/
theorem C3_state_roundtrip (uid : JStr) :
    ∃ v, decodeState (encodeState uid) = some v ∧
      jsGet v "userId".toList = some (.str uid) := by
  refine ⟨_, decodeState_encodeState uid, ?_⟩
  simp [jsGet, List.lookup]

theorem completeAuthorization_store_cases (code state error : Option JStr)
    (env : CallbackEnv) (store : Store) :
    (completeAuthorization code state error env store).2 = store ∨
      (completeAuthorization code state error env store).1 = .success := by
  unfold completeAuthorization
  repeat' split
  all_goals simp

/-- **C2**: whenever `completeAuthorization` ends in any failure reason, the
store — and in particular the targeted user record — is exactly as before
the call: no linkage field is written and no save happens on any failure
path. -/
theorem C2_callback_failure_no_write (code state error : Option JStr)
    (env : CallbackEnv) (store : Store) (r : String)
    (h : (completeAuthorization code state error env store).1 = .failure r) :
    (completeAuthorization code state error env store).2 = store := by
  rcases completeAuthorization_store_cases code state error env store with
    hs | hs
  · exact hs
  · rw [h] at hs
    exact absurd hs (by simp)

theorem C2_callback_failure_no_write_witness :
    (completeAuthorization none none none envNull store1).1
      = .failure "missing_params" ∧
    (completeAuthorization none none none envNull store1).2 = store1 :=
  ⟨rfl, C2_callback_failure_no_write none none none envNull store1
    "missing_params" rfl⟩

/-- **C5 (counterexample)**: the state `"bnVsbA=="` (base64 of `"null"`)
base64-decodes and parses as the JSON value `null`, a non-object value; the
claim predicts reason `invalid_state`, but the code reads `.userId` off
`null`, which throws, and the catch yields `server_error`. -/
theorem C5_null_state_counterexample :
    decodeState "bnVsbA==".toList = some .null ∧
    (completeAuthorization (some "abc".toList) (some "bnVsbA==".toList) none
      envNull store1).1 = .failure "server_error" ∧
    (completeAuthorization (some "abc".toList) (some "bnVsbA==".toList) none
      envNull store1).1 ≠ .failure "invalid_state" :=
  ⟨rfl, rfl, by decide⟩

/-- **C5 (amended)**: with non-empty `code` and `state` and no `errorParam`,
a state whose base64 decoding fails to parse as JSON, or whose parsed JSON
is a non-`null` value lacking a `userId` field (including numbers and other
non-object values), ends with reason `invalid_state`; the single exception
is a state parsing to JSON `null`, where the `.userId` access faults and the
reason is `server_error`. -/
theorem C5_amended_invalid_state (code state : JStr) (env : CallbackEnv)
    (store : Store) (hc : code ≠ []) (hs : state ≠ []) :
    (decodeState state = none →
      (completeAuthorization (some code) (some state) none env store).1
        = .failure "invalid_state")
    ∧ (∀ v, decodeState state = some v → isJsNull v = false →
        jsGet v "userId".toList = none →
        (completeAuthorization (some code) (some state) none env store).1
          = .failure "invalid_state")
    ∧ (decodeState state = some .null →
        (completeAuthorization (some code) (some state) none env store).1
          = .failure "server_error") := by
  have hcf : code.isEmpty = false := by
    cases code with
    | nil => exact absurd rfl hc
    | cons a l => rfl
  have hsf : state.isEmpty = false := by
    cases state with
    | nil => exact absurd rfl hs
    | cons a l => rfl
  refine ⟨?_, ?_, ?_⟩
  · intro hdec
    unfold completeAuthorization
    simp [queryTruthy, hcf, hsf, hdec]
  · intro v hdec hnn huid
    unfold completeAuthorization
    have huid2 : jsGet v ['u', 's', 'e', 'r', 'I', 'd'] = none := huid
    simp [queryTruthy, hcf, hsf, hdec, hnn, huid2]
  · intro hdec
    unfold completeAuthorization
    simp [queryTruthy, hcf, hsf, hdec, isJsNull]

theorem C5_amended_invalid_state_witness :
    ("x".toList : JStr) ≠ [] ∧ decodeState "NQ==".toList = some (.num 5 0) ∧
    (completeAuthorization (some "x".toList) (some "NQ==".toList) none
      envNull store1).1 = .failure "invalid_state" :=
  ⟨by decide, rfl,
    (C5_amended_invalid_state "x".toList "NQ==".toList envNull store1
      (by decide) (by decide)).2.1 (.num 5 0) rfl rfl rfl⟩

theorem completeAuthorization_success_store (code state error : Option JStr)
    (env : CallbackEnv) (store : Store)
    (hsucc : (completeAuthorization code state error env store).1 = .success) :
    ∃ v uid td p user k atok,
      decodeState (state.getD []) = some v ∧
      jsGet v "userId".toList = some uid ∧
      uid = .str k ∧
      env.tokenResp = .ok td ∧
      jsGet td "access_token".toList = some atok ∧
      env.profileResp = .ok p ∧
      ¬((!jsTruthyOpt (jsGet p "login".toList)) = true) ∧
      findByJsId store uid = some user ∧
      (completeAuthorization code state error env store).2
        = saveUser store k
            { user with
              githubAccessToken := some atok,
              githubUsername := jsGet p "login".toList,
              githubId := jsGet p "id".toList,
              githubProfileUrl := jsGet p "html_url".toList,
              githubConnectedAt := some env.now } := by
  unfold completeAuthorization at hsucc ⊢
  repeat' split at hsucc
  all_goals try (exfalso; revert hsucc; simp; done)
  exact ⟨_, _, _, _, _, _, _, by assumption, by assumption, rfl,
    by assumption, by assumption, by assumption, by assumption,
    by assumption, by simp_all⟩

theorem jsTruthyOpt_isSome {o : Option Js} (h : jsTruthyOpt o = true) :
    o.isSome = true := by
  cases o with
  | none => simp [jsTruthyOpt] at h
  | some v => rfl

/-- The partially-linked record that the counterexample run below persists:
token, username and timestamp set, but `githubId` and `githubProfileUrl`
absent. -/
def userPartial : UserRec :=
  { githubAccessToken := some (.str "tok".toList),
    githubUsername := some (.str "octo".toList),
    githubId := none,
    githubProfileUrl := none,
    githubConnectedAt := some 0 }

/-- **C1 (counterexample)**: with an upstream profile response that carries a
`login` but no `id` and no `html_url` (the claim's "any operation" includes
calls with malformed upstream responses, cf. C4), `completeAuthorization`
succeeds yet writes only three of the five linkage fields, leaving a
partially populated record. -/
theorem C1_link_fields_counterexample :
    StoreInv store1 ∧
    (completeAuthorization (some "c".toList) (some (encodeState "u1".toList))
      none ⟨.ok tokBody, .ok profNoId, true, 0⟩ store1).1 = .success ∧
    ¬ StoreInv (completeAuthorization (some "c".toList)
      (some (encodeState "u1".toList)) none
      ⟨.ok tokBody, .ok profNoId, true, 0⟩ store1).2 := by
  refine ⟨?_, by rfl, ?_⟩
  · intro p hp
    rw [List.mem_singleton.mp hp]
    right
    rfl
  · intro hinv
    have hmem : ("u1".toList, userPartial) ∈ (completeAuthorization
        (some "c".toList) (some (encodeState "u1".toList)) none
        ⟨.ok tokBody, .ok profNoId, true, 0⟩ store1).2 := by
      rw [show (completeAuthorization (some "c".toList)
        (some (encodeState "u1".toList)) none
        ⟨.ok tokBody, .ok profNoId, true, 0⟩ store1).2
        = [("u1".toList, userPartial)] from rfl]
      exact List.mem_singleton.mpr rfl
    rcases hinv _ hmem with hb | hb
    · exact absurd hb (by decide)
    · exact absurd hb (by decide)

/-- **C1 (amended)**: provided any consulted profile response carries `id`
and `html_url` fields (GitHub's documented profile shape), the linkage
fields stay all-set-or-all-clear across the mutating operations: a
successful `completeAuthorization` sets all five together (overwriting,
never merging), every failure leaves the store untouched, and `disconnect`
clears all five together.  (`getStatus` and `listRepositories` do not write
the store.) -/
theorem C1_amended_link_invariant (code state error : Option JStr)
    (env : CallbackEnv) (store : Store) (callerId : JStr) (saveOk : Bool)
    (hstore : StoreInv store)
    (hprof : ∀ p, env.profileResp = .ok p →
      (jsGet p "id".toList).isSome = true ∧
      (jsGet p "html_url".toList).isSome = true) :
    StoreInv (completeAuthorization code state error env store).2
    ∧ StoreInv (disconnect store callerId saveOk).2 := by
  constructor
  · by_cases hsucc :
        (completeAuthorization code state error env store).1 = .success
    · obtain ⟨v, uid, td, p, user, k, atok, h1, h2, h3, h4, h5, h6, h7, h8, h9⟩ :=
        completeAuthorization_success_store code state error env store hsucc
      rw [h9]
      apply StoreInv_saveUser _ _ _ hstore
      left
      have hlog : (jsGet p "login".toList).isSome = true := by
        apply jsTruthyOpt_isSome
        rcases hx : jsTruthyOpt (jsGet p "login".toList) with _ | _
        · rw [hx] at h7
          simp at h7
        · rfl
      obtain ⟨hid, hurl⟩ := hprof p h6
      have hlog2 : (jsGet p ['l', 'o', 'g', 'i', 'n']).isSome = true := hlog
      have hid2 : (jsGet p ['i', 'd']).isSome = true := hid
      have hurl2 :
          (jsGet p ['h', 't', 'm', 'l', '_', 'u', 'r', 'l']).isSome = true :=
        hurl
      unfold linkAllSet
      simp [hlog2, hid2, hurl2]
    · rcases completeAuthorization_store_cases code state error env store with
        h | h
      · rw [h]
        exact hstore
      · exact absurd h hsucc
  · unfold disconnect
    cases hfind : findById store callerId with
    | none => exact hstore
    | some u =>
      cases saveOk with
      | false => exact hstore
      | true =>
        simp only []
        rw [if_pos trivial]
        exact StoreInv_saveUser _ _ _ hstore (Or.inr (clearGithub_allClear u))

theorem C1_amended_link_invariant_witness :
    StoreInv store1 ∧
    StoreInv (completeAuthorization (some "c".toList)
      (some (encodeState "u1".toList)) none
      ⟨.ok tokBody, .ok profBody, true, 7⟩ store1).2 := by
  constructor
  · intro p hp
    rw [List.mem_singleton.mp hp]
    right
    rfl
  · exact (C1_amended_link_invariant (some "c".toList)
      (some (encodeState "u1".toList)) none
      ⟨.ok tokBody, .ok profBody, true, 7⟩ store1 "u1".toList true
      (by intro p hp
          rw [List.mem_singleton.mp hp]
          right
          rfl)
      (by intro p hp
          injection hp with hp2
          rw [← hp2]
          exact ⟨rfl, rfl⟩)).1

theorem completeAuthorization_reason_mem (code state error : Option JStr)
    (env : CallbackEnv) (store : Store) (r : String)
    (h : (completeAuthorization code state error env store).1 = .failure r) :
    r ∈ ["oauth_denied", "missing_params", "invalid_state",
         "token_exchange_failed", "profile_fetch_failed", "user_not_found",
         "server_error"] := by
  unfold completeAuthorization at h
  repeat' split at h
  all_goals
    first
      | (injection h
         done)
      | (injection h with h2
         subst h2
         decide)

/-- **C4**: the callback's failure taxonomy.  (a) Each of the seven
documented reason codes is reachable by a concrete input (malformed
upstream responses where needed).  (b) Every call produces `success` or
exactly one reason, always from the documented list (the outcome is a
single value of `CallbackOut`, so no two reasons can fire in one call).
(c) The guards fire in the documented precedence order: each reason is
produced whenever its own condition holds and every earlier guard has
passed; `server_error` also covers a throw (`.error`) at either upstream
call and a parsed `null` state, which pre-empt the later checks. -/
theorem C4_callback_reason_taxonomy :
    ((completeAuthorization (some "c".toList) (some "s".toList)
        (some "access_denied".toList) envNull store1).1
      = .failure "oauth_denied")
    ∧ ((completeAuthorization none none none envNull store1).1
      = .failure "missing_params")
    ∧ ((completeAuthorization (some "c".toList) (some "x".toList) none
        envNull store1).1 = .failure "invalid_state")
    ∧ ((completeAuthorization (some "c".toList)
        (some (encodeState "u1".toList)) none
        ⟨.ok (.obj []), .ok .null, true, 0⟩ store1).1
      = .failure "token_exchange_failed")
    ∧ ((completeAuthorization (some "c".toList)
        (some (encodeState "u1".toList)) none
        ⟨.ok tokBody, .ok (.obj []), true, 0⟩ store1).1
      = .failure "profile_fetch_failed")
    ∧ ((completeAuthorization (some "c".toList)
        (some (encodeState "u9".toList)) none
        ⟨.ok tokBody, .ok profBody, true, 0⟩ store1).1
      = .failure "user_not_found")
    ∧ ((completeAuthorization (some "c".toList)
        (some (encodeState "u1".toList)) none
        ⟨.error (), .ok .null, true, 0⟩ store1).1
      = .failure "server_error")
    ∧ (∀ (code state error : Option JStr) (env : CallbackEnv) (store : Store),
        (completeAuthorization code state error env store).1 = .success ∨
        ∃ r, (completeAuthorization code state error env store).1 = .failure r
          ∧ r ∈ ["oauth_denied", "missing_params", "invalid_state",
                 "token_exchange_failed", "profile_fetch_failed",
                 "user_not_found", "server_error"])
    ∧ (∀ (code state error : Option JStr) (env : CallbackEnv) (store : Store),
        queryTruthy error = true →
        (completeAuthorization code state error env store).1
          = .failure "oauth_denied")
    ∧ (∀ (code state error : Option JStr) (env : CallbackEnv) (store : Store),
        queryTruthy error = false →
        (queryTruthy code = false ∨ queryTruthy state = false) →
        (completeAuthorization code state error env store).1
          = .failure "missing_params")
    ∧ (∀ (code state error : Option JStr) (env : CallbackEnv) (store : Store),
        queryTruthy error = false → queryTruthy code = true →
        queryTruthy state = true →
        decodeState (state.getD []) = none →
        (completeAuthorization code state error env store).1
          = .failure "invalid_state")
    ∧ (∀ (code state error : Option JStr) (env : CallbackEnv) (store : Store)
        (v : Js),
        queryTruthy error = false → queryTruthy code = true →
        queryTruthy state = true →
        decodeState (state.getD []) = some v → isJsNull v = false →
        jsGet v "userId".toList = none →
        (completeAuthorization code state error env store).1
          = .failure "invalid_state")
    ∧ (∀ (code state error : Option JStr) (env : CallbackEnv) (store : Store)
        (v uid td : Js),
        queryTruthy error = false → queryTruthy code = true →
        queryTruthy state = true →
        decodeState (state.getD []) = some v → isJsNull v = false →
        jsGet v "userId".toList = some uid → jsTruthy uid = true →
        env.tokenResp = .ok td → isJsNull td = false →
        (jsTruthyOpt (jsGet td "error".toList) = true ∨
          jsTruthyOpt (jsGet td "access_token".toList) = false) →
        (completeAuthorization code state error env store).1
          = .failure "token_exchange_failed")
    ∧ (∀ (code state error : Option JStr) (env : CallbackEnv) (store : Store)
        (v uid td atok p : Js),
        queryTruthy error = false → queryTruthy code = true →
        queryTruthy state = true →
        decodeState (state.getD []) = some v → isJsNull v = false →
        jsGet v "userId".toList = some uid → jsTruthy uid = true →
        env.tokenResp = .ok td → isJsNull td = false →
        jsTruthyOpt (jsGet td "error".toList) = false →
        jsGet td "access_token".toList = some atok → jsTruthy atok = true →
        env.profileResp = .ok p → isJsNull p = false →
        jsTruthyOpt (jsGet p "login".toList) = false →
        (completeAuthorization code state error env store).1
          = .failure "profile_fetch_failed")
    ∧ (∀ (code state error : Option JStr) (env : CallbackEnv) (store : Store)
        (v uid td atok p : Js),
        queryTruthy error = false → queryTruthy code = true →
        queryTruthy state = true →
        decodeState (state.getD []) = some v → isJsNull v = false →
        jsGet v "userId".toList = some uid → jsTruthy uid = true →
        env.tokenResp = .ok td → isJsNull td = false →
        jsTruthyOpt (jsGet td "error".toList) = false →
        jsGet td "access_token".toList = some atok → jsTruthy atok = true →
        env.profileResp = .ok p → isJsNull p = false →
        jsTruthyOpt (jsGet p "login".toList) = true →
        findByJsId store uid = none →
        (completeAuthorization code state error env store).1
          = .failure "user_not_found") := by
  refine ⟨rfl, rfl, rfl, rfl, rfl, rfl, rfl, ?_, ?_, ?_, ?_, ?_, ?_, ?_, ?_⟩
  · intro code state error env store
    rcases hout : (completeAuthorization code state error env store).1 with
      _ | r
    · exact Or.inl rfl
    · exact Or.inr ⟨r, rfl,
        completeAuthorization_reason_mem code state error env store r hout⟩
  · intro code state error env store herr
    unfold completeAuthorization
    simp [herr]
  · intro code state error env store herr hmiss
    unfold completeAuthorization
    rcases hmiss with h | h
    · simp [herr, h]
    · simp [herr, h]
  · intro code state error env store herr hcode hstate hdec
    unfold completeAuthorization
    simp [herr, hcode, hstate, hdec]
  · intro code state error env store v herr hcode hstate hdec hnn huid
    unfold completeAuthorization
    have huid2 : jsGet v ['u', 's', 'e', 'r', 'I', 'd'] = none := huid
    simp [herr, hcode, hstate, hdec, hnn, huid2]
  · intro code state error env store v uid td herr hcode hstate hdec hnn huid
      htr htok htdnn hbad
    unfold completeAuthorization
    have huid2 : jsGet v ['u', 's', 'e', 'r', 'I', 'd'] = some uid := huid
    rcases hbad with h | h
    · have h2 : jsTruthyOpt (jsGet td ['e', 'r', 'r', 'o', 'r']) = true := h
      simp [herr, hcode, hstate, hdec, hnn, huid2, htr, htok, htdnn, h2]
    · have h2 : jsTruthyOpt (jsGet td
          ['a', 'c', 'c', 'e', 's', 's', '_', 't', 'o', 'k', 'e', 'n'])
          = false := h
      simp [herr, hcode, hstate, hdec, hnn, huid2, htr, htok, htdnn, h2]
  · intro code state error env store v uid td atok p herr hcode hstate hdec
      hnn huid htr htok htdnn htde htka htkt hprof hpnn hlog
    unfold completeAuthorization
    have huid2 : jsGet v ['u', 's', 'e', 'r', 'I', 'd'] = some uid := huid
    have htde2 : jsTruthyOpt (jsGet td ['e', 'r', 'r', 'o', 'r']) = false :=
      htde
    have htka2 : jsGet td
        ['a', 'c', 'c', 'e', 's', 's', '_', 't', 'o', 'k', 'e', 'n']
        = some atok := htka
    have hlog2 : jsTruthyOpt (jsGet p ['l', 'o', 'g', 'i', 'n']) = false :=
      hlog
    have htkt2 : jsTruthyOpt (some atok) = true := htkt
    simp [herr, hcode, hstate, hdec, hnn, huid2, htr, htok, htdnn, htde2,
      htka2, htkt2, hprof, hpnn, hlog2]
  · intro code state error env store v uid td atok p herr hcode hstate hdec
      hnn huid htr htok htdnn htde htka htkt hprof hpnn hlog hnf
    unfold completeAuthorization
    have huid2 : jsGet v ['u', 's', 'e', 'r', 'I', 'd'] = some uid := huid
    have htde2 : jsTruthyOpt (jsGet td ['e', 'r', 'r', 'o', 'r']) = false :=
      htde
    have htka2 : jsGet td
        ['a', 'c', 'c', 'e', 's', 's', '_', 't', 'o', 'k', 'e', 'n']
        = some atok := htka
    have hlog2 : jsTruthyOpt (jsGet p ['l', 'o', 'g', 'i', 'n']) = true :=
      hlog
    have htkt2 : jsTruthyOpt (some atok) = true := htkt
    simp [herr, hcode, hstate, hdec, hnn, huid2, htr, htok, htdnn, htde2,
      htka2, htkt2, hprof, hpnn, hlog2, hnf]

theorem C4_callback_reason_taxonomy_witness :
    (completeAuthorization (some "c".toList) none (some "e".toList) envNull
      store1).1 = .failure "oauth_denied" :=
  C4_callback_reason_taxonomy.2.2.2.2.2.2.2.2.1 (some "c".toList) none
    (some "e".toList) envNull store1 rfl
